import Mathlib

/-!
Verification of the `asterisk/manager.py` core of pyst2 (Asterisk Manager
Interface client).

The embedding models protocol lines as `List Char` (a Python `str` of one
line, terminator included when present) and Python dicts as association
lists with in-place update semantics (first occurrence updated in place,
new keys appended), which matches Python's insertion-ordered dicts.

Source functions embedded below:
  * `ManagerMsg.parse`      -> `parseMsg` / `parseMsgLoop`
  * `ManagerMsg.__init__`   -> `managerMsg` (classification heuristic)
  * `Manager.next_seq`      -> `nextSeq`
  * `Manager.send_action`   -> `sendAction`
  * `Manager.message_loop`  -> `messageLoop`
  * `Manager.event_dispatch`-> `dispatchOne` / `runCallbacks`
  * `Manager.register_event`-> `registerEvent`
  * `Manager.close`         -> `closeRun`
-/

/-- A protocol line, as Python would hold it: a string, i.e. a list of
characters (the `\r\n` terminator is part of the line when present). -/
abbrev Line := List Char

/-- Characters stripped by Python's `str.strip()` with no argument. -/
def pySpace (c : Char) : Bool :=
  c = ' ' || c = '\t' || c = '\n' || c = '\r' || c = '\x0b' || c = '\x0c'

/-- Python `s.strip()`: drop leading and trailing whitespace. -/
def pystrip (l : Line) : Line :=
  ((l.dropWhile pySpace).reverse.dropWhile pySpace).reverse

/-- Python `line.endswith('\r\n')`. -/
def endsWithEOL (l : Line) : Bool :=
  match l.reverse with
  | c1 :: c2 :: _ => c1 = '\n' && c2 = '\r'
  | _ => false

/-- Python `s.split(sep, 1)` when `sep` occurs: the parts before and after
the first occurrence of `sep`.  `none` when `sep` does not occur (in the
source this is the case where tuple unpacking raises `ValueError`). -/
def splitFirst (sep : Char) : Line → Option (Line × Line)
  | [] => none
  | c :: rest =>
    if c = sep then some ([], rest)
    else
      match splitFirst sep rest with
      | none => none
      | some (a, b) => some (c :: a, b)

/-- Python `pat in s` (substring containment). -/
def strContainsSub (pat : Line) : Line → Bool
  | [] => pat.isEmpty
  | c :: rest => pat.isPrefixOf (c :: rest) || strContainsSub pat rest

/-- Python `''.join(lines)`. -/
def joinLines (ls : List Line) : Line := ls.flatten

/-- A header value: ordinary string, or the nested `name -> value` dict
kept under the `'ChanVariable'` key. -/
inductive HVal where
  | str : Line → HVal
  | nested : List (Line × Line) → HVal
deriving DecidableEq, Repr

/-- Python dict as an insertion-ordered association list. -/
abbrev PyDict (α : Type) := List (Line × α)

/-- Python `d[k]` lookup (`none` when the key is absent). -/
def dictGet {α : Type} (k : Line) : PyDict α → Option α
  | [] => none
  | (k', v) :: rest => if k' = k then some v else dictGet k rest

/-- Python `d[k] = v`: update the existing entry in place, else append. -/
def dictSet {α : Type} (k : Line) (v : α) : PyDict α → PyDict α
  | [] => [(k, v)]
  | (k', v') :: rest =>
    if k' = k then (k, v) :: rest else (k', v') :: dictSet k v rest

/-- Python `k in d`. -/
def dictHas {α : Type} (k : Line) (d : PyDict α) : Bool :=
  (dictGet k d).isSome

/-- Header dictionary of a `ManagerMsg`. -/
abbrev Headers := PyDict HVal

def lineOf (s : String) : Line := s.data

def chanVariableKey : Line := lineOf "ChanVariable"
def eventKey : Line := lineOf "Event"
def responseKey : Line := lineOf "Response"
def actionIDKey : Line := lineOf "ActionID"
def endCommandMarker : Line := lineOf "--END COMMAND--"
def generatedHeaderVal : Line := lineOf "Generated Header"
def noClueVal : Line := lineOf "NoClue"

/-- The nested dict currently stored under `'ChanVariable'`
(`self.headers['ChanVariable']`), treating absence as the freshly created
empty dict (`self.headers['ChanVariable'] = {}` when missing). -/
def chanVarCurrent (hs : Headers) : List (Line × Line) :=
  match dictGet chanVariableKey hs with
  | some (HVal.nested m) => m
  | _ => []

/-- Loop body of `ManagerMsg.parse`: walk the lines of the block; a line
not ending in `\r\n`, or one on which `k, v` unpacking or the
`ChanVariable` `name=value` split raises `ValueError`, sends that line and
every remaining line to the data body; otherwise the header dict is
extended (`ChanVariable`-containing keys merge into the shared nested
dict, other keys overwrite). -/
def parseMsgLoop : List Line → Headers → Headers × Line
  | [], hs => (hs, [])
  | line :: rest, hs =>
    if endsWithEOL line = false then (hs, joinLines (line :: rest))
    else
      match splitFirst ':' line with
      | none => (hs, joinLines (line :: rest))
      | some (k0, v0) =>
        let k := pystrip k0
        let v := pystrip v0
        if strContainsSub chanVariableKey k then
          match splitFirst '=' v with
          | none => (hs, joinLines (line :: rest))
          | some (n0, w0) =>
            parseMsgLoop rest
              (dictSet chanVariableKey
                (HVal.nested
                  (dictSet (pystrip n0) (pystrip w0) (chanVarCurrent hs)))
                hs)
        else parseMsgLoop rest (dictSet k (HVal.str v) hs)

/-- `ManagerMsg.parse`, starting from the empty header dict. -/
def parseMsg (response : List Line) : Headers × Line :=
  parseMsgLoop response []

/-- A parsed manager interface message: header dict plus free-text body. -/
structure ManagerMsg where
  headers : Headers
  data : Line
deriving DecidableEq, Repr

/-- `ManagerMsg.__init__`: parse the block, then apply the recovery
heuristic when neither `'Event'` nor `'Response'` was parsed. -/
def managerMsg (response : List Line) : ManagerMsg :=
  let p := parseMsg response
  let hs := p.1
  let d := p.2
  if !dictHas eventKey hs && !dictHas responseKey hs then
    if dictHas actionIDKey hs then
      ⟨dictSet responseKey (HVal.str generatedHeaderVal) hs, d⟩
    else if strContainsSub endCommandMarker d then
      ⟨dictSet eventKey (HVal.str noClueVal) hs, d⟩
    else
      ⟨dictSet responseKey (HVal.str generatedHeaderVal) hs, d⟩
  else ⟨hs, d⟩

/-- `ManagerMsg.has_header`. -/
def ManagerMsg.hasHeader (m : ManagerMsg) (k : Line) : Bool :=
  dictHas k m.headers

/-- Hex digits of `n` prepended to `acc`, most significant first; digits
are lowercase as with Python's `'%x'` (via `Nat.digitChar`).  Structural
recursion on a fuel argument (any fuel `> n` yields the digits of `n`). -/
def hexRepAux : Nat → Nat → List Char → List Char
  | 0, _, acc => acc
  | fuel + 1, n, acc =>
    if n < 16 then Nat.digitChar n :: acc
    else hexRepAux fuel (n / 16) (Nat.digitChar (n % 16) :: acc)

/-- Python `'%x' % n` (lowercase hex, `'0'` for zero). -/
def toHexPy (n : Nat) : List Char :=
  hexRepAux (n + 1) n []

/-- Zero-pad to (at least) width 8, as `'%08x'` does. -/
def pad8 (l : List Char) : List Char :=
  List.replicate (8 - l.length) '0' ++ l

/-- `'%s-%08x' % (self.hostname, self.next_seq())`: the generated
ActionID string. -/
def renderActionID (host : Line) (n : Nat) : Line :=
  host ++ '-' :: pad8 (toHexPy n)

/-- Inverse direction used to prove ActionIDs injective: value of a hex
digit character. -/
def hexVal (c : Char) : Nat :=
  match c with
  | '0' => 0 | '1' => 1 | '2' => 2 | '3' => 3 | '4' => 4
  | '5' => 5 | '6' => 6 | '7' => 7 | '8' => 8 | '9' => 9
  | 'a' => 10 | 'b' => 11 | 'c' => 12 | 'd' => 13 | 'e' => 14 | 'f' => 15
  | _ => 0

/-- Fold a hex digit string back to a number. -/
def unhexAcc (a : Nat) (l : List Char) : Nat :=
  l.foldl (fun acc c => 16 * acc + hexVal c) a

/-- `Manager.next_seq`: under `_seqlock`, return the current counter and
increment it.  (The lock serializes concurrent calls; the embedding is the
serialized semantics: returned value, successor state.) -/
def nextSeq (seq : Nat) : Nat × Nat := (seq, seq + 1)

/-- Counter state after `n` calls to `next_seq` starting from `seq0`. -/
def seqAfter (seq0 : Nat) : Nat → Nat
  | 0 => seq0
  | n + 1 => (nextSeq (seqAfter seq0 n)).2

/-- Value returned by the `(i+1)`-st call to `next_seq`. -/
def seqReturn (seq0 : Nat) (i : Nat) : Nat :=
  (nextSeq (seqAfter seq0 i)).1

/-- A value in an action dict: a plain string, or a list of strings sent
as one line per item under the same header. -/
inductive DVal where
  | str : Line → DVal
  | lst : List Line → DVal
deriving DecidableEq, Repr

/-- The `cdict` argument/state of `send_action`. -/
abbrev CDict := PyDict DVal

/-- Python `cdict.update(kwargs)`: set each pair in iteration order. -/
def dictUpdate (d : CDict) (kwargs : List (Line × DVal)) : CDict :=
  kwargs.foldl (fun acc kv => dictSet kv.1 kv.2 acc) d

def eolLine : Line := lineOf "\r\n"

/-- The `clist` built by `send_action`: one `'key: value'` entry per
value, list values expanded one entry per item, in dict order. -/
def clistOf (d : CDict) : List Line :=
  (d.map (fun kv =>
    match kv.2 with
    | DVal.str v => [kv.1 ++ lineOf ": " ++ v]
    | DVal.lst vs => vs.map (fun v => kv.1 ++ lineOf ": " ++ v))).flatten

/-- Python `EOL.join(clist)`. -/
def joinWith (sep : Line) : List Line → Line
  | [] => []
  | [l] => l
  | l :: ls => l ++ sep ++ joinWith sep (l :: ls).tail

/-- The serialized command written to the socket for a given `cdict`
(`clist.append(EOL); command = EOL.join(clist)`). -/
def commandOf (d : CDict) : Line :=
  joinWith eolLine (clistOf d ++ [eolLine])

/-- The `Manager` state visible to `send_action` and the router, with
threads and queues made explicit:
  * `connected` — the `_connected` event flag;
  * `seq` — the ActionID counter;
  * `defaultCdict` — Python evaluates the default value of the `cdict`
    parameter once at function definition; every call that omits `cdict`
    shares and mutates that one dict, so it is part of the state;
  * `responseQueue` — the `_response_queue` contents, head = next `get`;
    `none` is the sentinel the router puts on connection termination;
  * `reswaiting` — `len(self._reswaiting)`;
  * `wire` — commands written to the socket so far, oldest first. -/
structure MgrState where
  connected : Bool
  hostname : Line
  seq : Nat
  defaultCdict : CDict
  responseQueue : List (Option ManagerMsg)
  reswaiting : Nat
  wire : List Line
deriving DecidableEq, Repr

/-- The observable outcome of one `send_action` call. -/
inductive SendOutcome where
  | ok : ManagerMsg → SendOutcome
  | errNotConnected : SendOutcome
  | errConnTerminated : SendOutcome
  | blocked : SendOutcome
deriving DecidableEq, Repr

/-- `Manager.send_action(cdict={}, **kwargs)`.  `cdictArg = none` is a
call that omits `cdict` (it then uses the shared default dict);
`some d` passes an explicit dict `d`.  Returns the outcome, the state
after the call, and the final contents of the (mutated) `cdict` object.

Faithful to the source order: the `Not connected` check happens before
`cdict` is touched or anything is written; then `cdict.update(kwargs)`;
then an ActionID is stamped via `next_seq` only when `'ActionID'` is not
already a key; the serialized command is written; the caller registers in
`_reswaiting` and blocks on `_response_queue.get()` — `blocked` models an
empty queue (the caller stays registered), a `none` item raises
`ManagerSocketException(0, 'Connection Terminated')`. -/
def sendAction (st : MgrState) (cdictArg : Option CDict)
    (kwargs : List (Line × DVal)) : SendOutcome × MgrState × CDict :=
  let cdict0 := match cdictArg with | some d => d | none => st.defaultCdict
  if st.connected = false then (SendOutcome.errNotConnected, st, cdict0)
  else
    let cdict1 := dictUpdate cdict0 kwargs
    let stamped :=
      if dictHas actionIDKey cdict1 then (cdict1, st.seq)
      else (dictSet actionIDKey
              (DVal.str (renderActionID st.hostname (nextSeq st.seq).1)) cdict1,
            (nextSeq st.seq).2)
    let cdict2 := stamped.1
    let st1 : MgrState :=
      { st with
        seq := stamped.2,
        defaultCdict := if cdictArg.isNone then cdict2 else st.defaultCdict,
        wire := st.wire ++ [commandOf cdict2] }
    match st1.responseQueue with
    | [] => (SendOutcome.blocked, { st1 with reswaiting := st1.reswaiting + 1 }, cdict2)
    | none :: qrest =>
      (SendOutcome.errConnTerminated, { st1 with responseQueue := qrest }, cdict2)
    | some r :: qrest =>
      (SendOutcome.ok r, { st1 with responseQueue := qrest }, cdict2)

/-- A caller blocked inside `send_action` resuming from
`_response_queue.get()` once an item is available (it then pops its
`_reswaiting` marker and checks the item for the `None` sentinel). -/
def resumeSend (st : MgrState) : SendOutcome × MgrState :=
  match st.responseQueue with
  | [] => (SendOutcome.blocked, st)
  | none :: qrest =>
    (SendOutcome.errConnTerminated,
     { st with responseQueue := qrest, reswaiting := st.reswaiting - 1 })
  | some r :: qrest =>
    (SendOutcome.ok r,
     { st with responseQueue := qrest, reswaiting := st.reswaiting - 1 })

/-- Resume `n` blocked callers in FIFO order. -/
def resumeAll : Nat → MgrState → List SendOutcome × MgrState
  | 0, st => ([], st)
  | n + 1, st =>
    let p := resumeSend st
    let q := resumeAll n p.2
    (p.1 :: q.1, q.2)

/-- The `Event` object built from an `'Event'`-classified message
(`Event.__init__`): keeps the message and exposes the event name. -/
structure EventV where
  name : Line
  message : ManagerMsg
deriving DecidableEq, Repr

/-- Build an `Event` from a message (callers guard with
`has_header('Event')`; the `'Event'` key is never the nested dict, which
lives only under `'ChanVariable'`). -/
def mkEvent (m : ManagerMsg) : EventV :=
  { name :=
      match dictGet eventKey m.headers with
      | some (HVal.str s) => s
      | _ => []
    message := m }

/-- `Manager.message_loop` routing, as a function of the stream of items
taken from `_message_queue` (each `some block` a framed message, `none`
the termination sentinel) to the contents of the event queue and the
response queue.  `nwait` is `len(self._reswaiting)` when the sentinel is
processed: the loop then puts one `None` per registered waiter on the
response queue (and one on the event queue) and stops.  An
`'Event'`-classified message goes to the event queue, else a
`'Response'`-classified one to the response queue, else it is only
printed. -/
def messageLoop (nwait : Nat) :
    List (Option (List Line)) → List (Option EventV) × List (Option ManagerMsg)
  | [] => ([], [])
  | none :: _ => ([none], List.replicate nwait none)
  | some d :: rest =>
    let m := managerMsg d
    let q := messageLoop nwait rest
    if m.hasHeader eventKey then (some (mkEvent m) :: q.1, q.2)
    else if m.hasHeader responseKey then (q.1, some m :: q.2)
    else q

/-- The `_event_callbacks` registry.  Callbacks are identified by opaque
ids (`Nat`); their return values on a given event are supplied separately
as a function of the id. -/
abbrev Registry := PyDict (List Nat)

/-- `Manager.register_event`: fetch the current list (or `[]`), append
the new callback, store the list back. -/
def registerEvent (reg : Registry) (event : Line) (f : Nat) : Registry :=
  dictSet event ((dictGet event reg).getD [] ++ [f]) reg

def starKey : Line := lineOf "*"

/-- The callback list `event_dispatch` builds for an event name:
exact-name subscribers then `'*'` subscribers. -/
def callbacksFor (reg : Registry) (name : Line) : List Nat :=
  (dictGet name reg).getD [] ++ (dictGet starKey reg).getD []

/-- The `for callback in callbacks: if callback(ev, self): break` loop:
returns the callbacks invoked, in invocation order (`beh c` is the
truthiness of callback `c`'s return value on this event). -/
def runCallbacks (beh : Nat → Bool) : List Nat → List Nat
  | [] => []
  | c :: rest => if beh c then [c] else c :: runCallbacks beh rest

/-- One iteration of `Manager.event_dispatch` for an event with the given
name: the callbacks invoked, in order. -/
def dispatchOne (reg : Registry) (name : Line) (beh : Nat → Bool) : List Nat :=
  runCallbacks beh (callbacksFor reg name)

/-- Externally observable side effects of `Manager.close`. -/
inductive CloseAct where
  | logoff
  | sentinel
  | joinMessageThread
  | joinDispatchThread
deriving DecidableEq, Repr

/-- The two flags `close` consults. -/
structure CloseState where
  running : Bool
  connected : Bool
deriving DecidableEq, Repr

/-- `Manager.close`: logoff when still running and connected; when
running, put the `None` sentinel on the message queue, join the message
thread, and join the dispatch thread unless running on it
(`threading.currentThread() == self.event_dispatch_thread`, given as
`onDispatcherThread`); finally clear `_running`.  The logoff action
itself leaves both flags set (they are cleared by the receiver thread or
this function), so only an action is recorded for it. -/
def closeRun (s : CloseState) (onDispatcherThread : Bool) :
    CloseState × List CloseAct :=
  let acts1 : List CloseAct :=
    if s.running && s.connected then [CloseAct.logoff] else []
  let acts2 : List CloseAct :=
    if s.running then
      CloseAct.sentinel :: CloseAct.joinMessageThread ::
        (if onDispatcherThread then [] else [CloseAct.joinDispatchThread])
    else []
  ({ running := false, connected := s.connected }, acts1 ++ acts2)

/-- A sequence of externally serialized `send_action` calls, each passing
its own explicit `cdict` and no kwargs; returns the outcomes in call
order and the final state. -/
def runSends : MgrState → List CDict → List SendOutcome × MgrState
  | st, [] => ([], st)
  | st, d :: ds =>
    let p := sendAction st (some d) []
    let q := runSends p.2.1 ds
    (p.1 :: q.1, q.2)

/-- Two wire responses used by the concrete scenarios below. -/
def demoMsg1 : ManagerMsg := managerMsg [lineOf "Response: Success\r\n"]

def demoMsg2 : ManagerMsg := managerMsg [lineOf "Response: Error\r\n"]

/-- A freshly connected manager: counter at 0, default `cdict` still
empty, two responses already routed to the response queue. -/
def freshMgr : MgrState :=
  { connected := true
    hostname := lineOf "h"
    seq := 0
    defaultCdict := []
    responseQueue := [some demoMsg1, some demoMsg2]
    reswaiting := 0
    wire := [] }

/-- First `send_action` call of the `cdict`-default scenario: `cdict`
omitted, headers passed as kwargs only. -/
def leakCall1 : SendOutcome × MgrState × CDict :=
  sendAction freshMgr none
    [(lineOf "Action", DVal.str (lineOf "Ping")),
     (lineOf "Channel", DVal.str (lineOf "SIP/1"))]

/-- Second call: `cdict` omitted again, different kwargs. -/
def leakCall2 : SendOutcome × MgrState × CDict :=
  sendAction leakCall1.2.1 none
    [(lineOf "Action", DVal.str (lineOf "Status"))]

theorem dictGet_dictSet_self {α : Type} (k : Line) (v : α) (d : PyDict α) :
    dictGet k (dictSet k v d) = some v := by
  induction d with
  | nil => simp [dictGet, dictSet]
  | cons kv rest ih =>
    obtain ⟨k', v'⟩ := kv
    by_cases h : k' = k
    · simp [dictSet, dictGet, h]
    · simp [dictSet, dictGet, h, ih]

theorem dictGet_dictSet_ne {α : Type} (k k₂ : Line) (v : α) (d : PyDict α)
    (h : k ≠ k₂) : dictGet k₂ (dictSet k v d) = dictGet k₂ d := by
  induction d with
  | nil => simp [dictGet, dictSet, h]
  | cons kv rest ih =>
    obtain ⟨k', v'⟩ := kv
    by_cases h2 : k' = k
    · subst h2; simp [dictSet, dictGet, h, Ne.symm h]
    · by_cases h3 : k' = k₂ <;> simp [dictSet, dictGet, h2, h3, ih, Ne.symm h]

/-- Claim C6: for every input message block, the classified message has an
`'Event'` header or a `'Response'` header — every `ManagerMsg` is
classifiable as Event or Response. -/
theorem every_message_classifiable (response : List Line) :
    ((managerMsg response).hasHeader eventKey
      || (managerMsg response).hasHeader responseKey) = true := by
  unfold managerMsg
  simp only [ManagerMsg.hasHeader, dictHas]
  split
  · split
    · simp [dictGet_dictSet_self]
    · split
      · simp [dictGet_dictSet_self]
      · simp [dictGet_dictSet_self]
  next hcond =>
    rw [Bool.or_eq_true]
    by_contra hno
    rw [not_or] at hno
    obtain ⟨h1, h2⟩ := hno
    simp only [Bool.not_eq_true] at h1 h2
    exact hcond (by simp [h1, h2])

theorem dropWhile_all {p : Char → Bool} (l : Line) (h : ∀ x ∈ l, p x = false) :
    l.dropWhile p = l := by
  cases l with
  | nil => rfl
  | cons x t => simp [List.dropWhile_cons, h x (by simp)]

theorem dropWhile_clean (p : Char → Bool) (a : Line) (c : Char) (t : Line)
    (ha : ∀ x ∈ a, p x = false) (hc : p c = false) :
    (a ++ c :: t).dropWhile p = a ++ c :: t := by
  cases a with
  | nil => simp [List.dropWhile_cons, hc]
  | cons x a => simp [List.dropWhile_cons, ha x (by simp)]

theorem pystrip_clean (l : Line) (h : ∀ x ∈ l, pySpace x = false) :
    pystrip l = l := by
  unfold pystrip
  rw [dropWhile_all l h, dropWhile_all l.reverse (by simpa using h), List.reverse_reverse]

theorem endsWithEOL_concat (l : Line) : endsWithEOL (l ++ ['\r', '\n']) = true := by
  unfold endsWithEOL
  rw [show (l ++ ['\r', '\n']).reverse = '\n' :: '\r' :: l.reverse by simp]
  simp

theorem splitFirst_append (sep : Char) (a b : Line) (h : ∀ x ∈ a, x ≠ sep) :
    splitFirst sep (a ++ sep :: b) = some (a, b) := by
  induction a with
  | nil => simp [splitFirst]
  | cons x a ih =>
    simp [splitFirst, h x (by simp), ih (fun y hy => h y (by simp [hy]))]

theorem pystrip_pair (n1 v1 : Line)
    (hn : ∀ x ∈ n1, pySpace x = false) (hv : ∀ x ∈ v1, pySpace x = false) :
    pystrip (' ' :: (n1 ++ '=' :: (v1 ++ eolLine))) = n1 ++ '=' :: v1 := by
  unfold pystrip
  have h1 : List.dropWhile pySpace (' ' :: (n1 ++ '=' :: (v1 ++ eolLine)))
      = n1 ++ '=' :: (v1 ++ eolLine) := by
    rw [List.dropWhile_cons]
    simp only [show pySpace ' ' = true from rfl, if_true]
    exact dropWhile_clean pySpace n1 '=' (v1 ++ eolLine) hn (by decide)
  rw [h1]
  have h2 : (n1 ++ '=' :: (v1 ++ eolLine)).reverse
      = '\n' :: '\r' :: (v1.reverse ++ '=' :: n1.reverse) := by
    simp [eolLine, lineOf]
  rw [h2]
  rw [List.dropWhile_cons, List.dropWhile_cons]
  simp only [show pySpace '\n' = true from rfl, show pySpace '\r' = true from rfl, if_true]
  rw [dropWhile_clean pySpace v1.reverse '=' n1.reverse (by simpa using hv) (by decide)]
  simp

theorem parseMsgLoop_chanVar (n1 v1 : Line) (rest : List Line) (hs : Headers)
    (hn : ∀ x ∈ n1, pySpace x = false ∧ x ≠ '=')
    (hv : ∀ x ∈ v1, pySpace x = false) :
    parseMsgLoop ((lineOf "ChanVariable: " ++ n1 ++ '=' :: v1 ++ eolLine) :: rest) hs
      = parseMsgLoop rest
          (dictSet chanVariableKey
            (HVal.nested (dictSet n1 v1 (chanVarCurrent hs))) hs) := by
  have hline : lineOf "ChanVariable: " ++ n1 ++ '=' :: v1 ++ eolLine
      = lineOf "ChanVariable" ++ ':' :: (' ' :: (n1 ++ '=' :: (v1 ++ eolLine))) := by
    rw [show lineOf "ChanVariable: " = lineOf "ChanVariable" ++ [':', ' '] from by decide]
    simp
  have heol : endsWithEOL (lineOf "ChanVariable: " ++ n1 ++ '=' :: v1 ++ eolLine) = true := by
    rw [show lineOf "ChanVariable: " ++ n1 ++ '=' :: v1 ++ eolLine
        = (lineOf "ChanVariable: " ++ n1 ++ '=' :: v1) ++ ['\r', '\n'] from by
      simp [eolLine, lineOf]]
    exact endsWithEOL_concat _
  have hsplit : splitFirst ':' (lineOf "ChanVariable: " ++ n1 ++ '=' :: v1 ++ eolLine)
      = some (lineOf "ChanVariable", ' ' :: (n1 ++ '=' :: (v1 ++ eolLine))) := by
    rw [hline]
    exact splitFirst_append ':' _ _ (by decide)
  have hstrip : pystrip (' ' :: (n1 ++ '=' :: (v1 ++ eolLine))) = n1 ++ '=' :: v1 :=
    pystrip_pair n1 v1 (fun x hx => (hn x hx).1) hv
  have hsplit2 : splitFirst '=' (n1 ++ '=' :: v1) = some (n1, v1) :=
    splitFirst_append '=' n1 v1 (fun x hx => (hn x hx).2)
  rw [parseMsgLoop, heol, hsplit]
  simp only [hstrip, hsplit2,
    show pystrip (lineOf "ChanVariable") = lineOf "ChanVariable" from by decide,
    show strContainsSub chanVariableKey (lineOf "ChanVariable") = true from by decide,
    pystrip_clean n1 (fun x hx => (hn x hx).1), pystrip_clean v1 hv]
  simp

/-- Claim C4 (amended): a message block of two well-formed ChanVariable
header lines whose `name=value` pairs have distinct *names* parses to a
single nested mapping under the shared `'ChanVariable'` key holding both
entries, neither overwriting the other. -/
theorem chanVariable_two_names (n1 v1 n2 v2 : Line)
    (hn1 : ∀ x ∈ n1, pySpace x = false ∧ x ≠ '=')
    (hn2 : ∀ x ∈ n2, pySpace x = false ∧ x ≠ '=')
    (hv1 : ∀ x ∈ v1, pySpace x = false)
    (hv2 : ∀ x ∈ v2, pySpace x = false)
    (hne : n1 ≠ n2) :
    dictGet chanVariableKey
        (managerMsg
          [lineOf "ChanVariable: " ++ n1 ++ '=' :: v1 ++ eolLine,
           lineOf "ChanVariable: " ++ n2 ++ '=' :: v2 ++ eolLine]).headers
      = some (HVal.nested [(n1, v1), (n2, v2)]) := by
  unfold managerMsg parseMsg
  rw [parseMsgLoop_chanVar n1 v1 _ _ hn1 hv1, parseMsgLoop_chanVar n2 v2 _ _ hn2 hv2]
  simp only [chanVarCurrent, dictGet, dictSet, parseMsgLoop]
  simp [dictHas, dictGet, dictSet, hne, managerMsg, strContainsSub,
    chanVariableKey, eventKey, responseKey, actionIDKey, lineOf]

/-- Claim C4 counterexample: the two ChanVariable header lines carry
different `name=value` pairs (`X=1` vs `X=2`), yet the parsed nested
mapping has a single entry `X -> 2`: the second pair overwrote the first,
so the claim as stated (both entries present, neither overwriting the
other) is false for same-name pairs. -/
theorem chanVariable_same_name_overwrites :
    dictGet chanVariableKey
        (managerMsg [lineOf "ChanVariable: X=1\r\n",
                     lineOf "ChanVariable: X=2\r\n"]).headers
      = some (HVal.nested [(lineOf "X", lineOf "2")]) := by decide

/-- Claim C2: when the parsed headers contain neither `'Event'` nor
`'Response'`, classification follows the decision table exactly: with an
`'ActionID'` header present, `Response = 'Generated Header'`; else with
the `--END COMMAND--` marker in the body, `Event = 'NoClue'`; else
`Response = 'Generated Header'`. -/
theorem classification_decision_table (response : List Line)
    (hev : dictGet eventKey (parseMsg response).1 = none)
    (hresp : dictGet responseKey (parseMsg response).1 = none) :
    (dictHas actionIDKey (parseMsg response).1 = true →
      dictGet responseKey (managerMsg response).headers
          = some (HVal.str generatedHeaderVal)
        ∧ dictGet eventKey (managerMsg response).headers = none)
    ∧ (dictHas actionIDKey (parseMsg response).1 = false →
        strContainsSub endCommandMarker (parseMsg response).2 = true →
        dictGet eventKey (managerMsg response).headers
            = some (HVal.str noClueVal)
          ∧ dictGet responseKey (managerMsg response).headers = none)
    ∧ (dictHas actionIDKey (parseMsg response).1 = false →
        strContainsSub endCommandMarker (parseMsg response).2 = false →
        dictGet responseKey (managerMsg response).headers
            = some (HVal.str generatedHeaderVal)
          ∧ dictGet eventKey (managerMsg response).headers = none) := by
  have hcond : (!dictHas eventKey (parseMsg response).1
      && !dictHas responseKey (parseMsg response).1) = true := by
    simp [dictHas, hev, hresp]
  have hne : responseKey ≠ eventKey := by decide
  refine ⟨fun haid => ?_, fun haid hmark => ?_, fun haid hmark => ?_⟩
  · unfold managerMsg
    simp only [hcond, haid, if_true]
    simp [dictGet_dictSet_self, dictGet_dictSet_ne _ _ _ _ hne, hev]
  · unfold managerMsg
    simp only [hcond, haid, hmark, if_true, Bool.false_eq_true, if_false]
    simp [dictGet_dictSet_self, dictGet_dictSet_ne _ _ _ _ (Ne.symm hne), hresp]
  · unfold managerMsg
    simp only [hcond, haid, hmark, if_true, Bool.false_eq_true, if_false]
    simp [dictGet_dictSet_self, dictGet_dictSet_ne _ _ _ _ hne, hev]

/-- Witness for C2 at the concrete block `['ActionID: 7\r\n']`. -/
theorem classification_decision_table_witness :
    dictGet responseKey (managerMsg [lineOf "ActionID: 7\r\n"]).headers
        = some (HVal.str generatedHeaderVal)
      ∧ dictGet eventKey (managerMsg [lineOf "ActionID: 7\r\n"]).headers = none :=
  (classification_decision_table [lineOf "ActionID: 7\r\n"]
    (by decide) (by decide)).1 (by decide)

theorem hexVal_digitChar : ∀ m < 16, hexVal (Nat.digitChar m) = m := by decide

theorem hexRepAux_fuel (fuel : Nat) : ∀ n acc, n < fuel →
    hexRepAux fuel n acc = toHexPy n ++ acc := by
  induction fuel using Nat.strong_induction_on with
  | _ fuel ih =>
    intro n acc hlt
    match fuel, hlt with
    | f + 1, hlt =>
      by_cases h16 : n < 16
      · simp [hexRepAux, h16, toHexPy]
      · have hdiv : n / 16 < n := Nat.div_lt_self (by omega) (by norm_num)
        rw [show hexRepAux (f + 1) n acc
            = hexRepAux f (n / 16) (Nat.digitChar (n % 16) :: acc) from by
          simp [hexRepAux, h16]]
        rw [ih f (by omega) (n / 16) _ (by omega)]
        rw [show toHexPy n = hexRepAux n (n / 16) [Nat.digitChar (n % 16)] from by
          simp [toHexPy, hexRepAux, h16]]
        rw [ih n hlt (n / 16) _ hdiv]
        simp

theorem unhexAcc_append (a : Nat) (l : List Char) (c : Char) :
    unhexAcc a (l ++ [c]) = 16 * unhexAcc a l + hexVal c := by
  simp [unhexAcc, List.foldl_append]

theorem unhex_toHexPy : ∀ n a, unhexAcc a (toHexPy n) = a * 16 ^ (toHexPy n).length + n := by
  intro n
  induction n using Nat.strong_induction_on with
  | _ n ih =>
    intro a
    by_cases h16 : n < 16
    · rw [show toHexPy n = [Nat.digitChar n] from by simp [toHexPy, hexRepAux, h16]]
      simp [unhexAcc, hexVal_digitChar n h16]
      ring
    · have hdiv : n / 16 < n := Nat.div_lt_self (by omega) (by norm_num)
      have hrw : toHexPy n = toHexPy (n / 16) ++ [Nat.digitChar (n % 16)] := by
        rw [show toHexPy n = hexRepAux n (n / 16) [Nat.digitChar (n % 16)] from by
          simp [toHexPy, hexRepAux, h16]]
        exact hexRepAux_fuel n (n / 16) _ hdiv
      rw [hrw, unhexAcc_append, ih (n / 16) hdiv a,
        hexVal_digitChar (n % 16) (Nat.mod_lt _ (by norm_num)),
        List.length_append, List.length_singleton, pow_succ, ← mul_assoc]
      generalize a * 16 ^ (toHexPy (n / 16)).length = B
      omega

theorem unhex_replicate_zeros (k : Nat) (l : List Char) :
    unhexAcc 0 (List.replicate k '0' ++ l) = unhexAcc 0 l := by
  induction k with
  | zero => simp
  | succ k ih =>
    simpa [unhexAcc, List.replicate_succ, show hexVal '0' = 0 from rfl] using ih

theorem unhex_pad8 (n : Nat) : unhexAcc 0 (pad8 (toHexPy n)) = n := by
  unfold pad8
  rw [unhex_replicate_zeros, unhex_toHexPy n 0]
  simp

theorem renderActionID_inj (host : Line) (m n : Nat)
    (h : renderActionID host m = renderActionID host n) : m = n := by
  unfold renderActionID at h
  have h2 : pad8 (toHexPy m) = pad8 (toHexPy n) := by
    have h1 := List.append_cancel_left h
    simpa using h1
  have h3 := congrArg (unhexAcc 0) h2
  rwa [unhex_pad8, unhex_pad8] at h3

theorem seqAfter_eq (seq0 : Nat) : ∀ i, seqAfter seq0 i = seq0 + i
  | 0 => rfl
  | i + 1 => by
    simp [seqAfter, nextSeq, seqAfter_eq seq0 i]
    omega

theorem seqReturn_eq (seq0 i : Nat) : seqReturn seq0 i = seq0 + i := by
  simp [seqReturn, nextSeq, seqAfter_eq]

/-- Claim C7: `next_seq` is monotonically increasing — the value returned
by the `(i+1)`-st call is strictly below the one returned by the
`(j+1)`-st call when `i < j` — and the rendered
`'<hostname>-<8-hex-digit-zero-padded-counter>'` ActionIDs of distinct
calls on one Manager instance are distinct. -/
theorem actionID_monotone_unique (host : Line) (seq0 i j : Nat) (hij : i < j) :
    seqReturn seq0 i < seqReturn seq0 j
    ∧ renderActionID host (seqReturn seq0 i) ≠ renderActionID host (seqReturn seq0 j) := by
  constructor
  · simp only [seqReturn_eq]
    omega
  · intro hcontra
    have h := renderActionID_inj host _ _ hcontra
    simp only [seqReturn_eq] at h
    omega

/-- Witness for C7 at calls 1 and 2 of a counter starting at 0. -/
theorem actionID_monotone_unique_witness :
    seqReturn 0 0 < seqReturn 0 1
    ∧ renderActionID (lineOf "h") (seqReturn 0 0)
        ≠ renderActionID (lineOf "h") (seqReturn 0 1) :=
  actionID_monotone_unique (lineOf "h") 0 0 1 (by decide)

/-- Claim C8: `send_action` on a connection whose `_connected` flag is
clear fails immediately with the `'Not connected'` error: nothing is
written to the wire, the counter and queues are untouched, and the
caller's `cdict` is not mutated (the state and dict are returned exactly
as they were). -/
theorem sendAction_not_connected (st : MgrState) (cdictArg : Option CDict)
    (kwargs : List (Line × DVal)) (h : st.connected = false) :
    sendAction st cdictArg kwargs
      = (SendOutcome.errNotConnected, st,
         match cdictArg with | some d => d | none => st.defaultCdict) := by
  simp [sendAction, h]

theorem sendAction_not_connected_witness :
    sendAction { freshMgr with connected := false } (some []) []
      = (SendOutcome.errNotConnected, { freshMgr with connected := false }, []) :=
  sendAction_not_connected { freshMgr with connected := false } (some []) [] (by decide)

/-- Claim C9: a second `close()` after a completed `close()` is a no-op:
it performs no logoff, no sentinel injection and no thread joins (empty
action list), leaves the state unchanged, and — being a total function of
the state — neither raises nor deadlocks. -/
theorem close_idempotent (s : CloseState) (onDisp onDisp2 : Bool) :
    closeRun (closeRun s onDisp).1 onDisp2 = ((closeRun s onDisp).1, []) := by
  simp [closeRun]

/-- Claim C10: `send_action`'s `cdict` parameter defaults to one shared
mutable dict.  Two successive calls that omit `cdict` and pass headers
only as kwargs leak state: the second call's outbound request still
contains the `Channel` header and the very ActionID stamped during the
first call (the counter was bumped only once), and a caller-supplied
`cdict` gets the stamped `ActionID` key added in place. -/
theorem default_cdict_leak :
    dictHas (lineOf "Channel") leakCall2.2.2 = true
    ∧ dictGet actionIDKey leakCall2.2.2
        = some (DVal.str (renderActionID (lineOf "h") 0))
    ∧ dictGet actionIDKey leakCall1.2.2
        = some (DVal.str (renderActionID (lineOf "h") 0))
    ∧ leakCall2.2.1.seq = 1
    ∧ strContainsSub (lineOf "Channel: SIP/1") (commandOf leakCall2.2.2) = true
    ∧ dictGet actionIDKey
        (sendAction freshMgr (some [(lineOf "Action", DVal.str (lineOf "Ping"))]) []).2.2
      ≠ none := by decide

theorem sendAction_pop (st : MgrState) (d : CDict) (r : ManagerMsg)
    (q : List (Option ManagerMsg))
    (hc : st.connected = true) (hq : st.responseQueue = some r :: q) :
    (sendAction st (some d) []).1 = SendOutcome.ok r
    ∧ (sendAction st (some d) []).2.1.connected = true
    ∧ (sendAction st (some d) []).2.1.responseQueue = q := by
  simp [sendAction, hc, hq]

theorem messageLoop_responses (nwait : Nat) (bs : List (List Line))
    (h : ∀ b ∈ bs, (managerMsg b).hasHeader eventKey = false
        ∧ (managerMsg b).hasHeader responseKey = true) :
    messageLoop nwait (bs.map some) = ([], bs.map (fun b => some (managerMsg b))) := by
  induction bs with
  | nil => rfl
  | cons b bs ih =>
    have hb := h b (by simp)
    simp [messageLoop, hb.1, hb.2, ih (fun x hx => h x (by simp [hx]))]

theorem runSends_fifo_core (reqs : List CDict) : ∀ (st : MgrState) (rs : List ManagerMsg),
    st.connected = true → st.responseQueue = rs.map some → reqs.length ≤ rs.length →
    (runSends st reqs).1 = (rs.take reqs.length).map SendOutcome.ok := by
  induction reqs with
  | nil => intro st rs hc hq hlen; simp [runSends]
  | cons d reqs ih =>
    intro st rs hc hq hlen
    match rs, hlen with
    | r :: rs, hlen =>
      obtain ⟨h1, h2, h3⟩ := sendAction_pop st d r (rs.map some) hc (by simpa using hq)
      simp only [runSends, h1, List.length_cons, List.take_succ_cons, List.map_cons]
      rw [ih _ rs h2 h3 (by simpa using hlen)]

/-- Claim C1: for a sequence of externally serialized `send_action` calls,
the outcomes are exactly the wire responses in arrival order (FIFO via the
response queue), and the outcomes do not depend on the requests' contents
at all — in particular no matching by ActionID value is performed (any
request list of the same length yields the same responses). -/
theorem responses_fifo_no_actionid_matching (st : MgrState) (bs : List (List Line))
    (reqs : List CDict)
    (hconn : st.connected = true)
    (hq : st.responseQueue = (messageLoop 0 (bs.map some)).2)
    (hresp : ∀ b ∈ bs, (managerMsg b).hasHeader eventKey = false
        ∧ (managerMsg b).hasHeader responseKey = true)
    (hlen : reqs.length ≤ bs.length) :
    (runSends st reqs).1
      = (bs.take reqs.length).map (fun b => SendOutcome.ok (managerMsg b))
    ∧ ∀ reqs2 : List CDict, reqs2.length = reqs.length →
        (runSends st reqs2).1 = (runSends st reqs).1 := by
  have hq2 : st.responseQueue = (bs.map managerMsg).map some := by
    rw [hq, messageLoop_responses 0 bs hresp]
    simp [List.map_map]
  have main := runSends_fifo_core reqs st (bs.map managerMsg) hconn hq2 (by simpa using hlen)
  constructor
  · rw [main, ← List.map_take]
    simp only [List.map_map, Function.comp_def]
  · intro reqs2 hlen2
    rw [main, runSends_fifo_core reqs2 st (bs.map managerMsg) hconn hq2
        (by simp [hlen2]; omega), hlen2]

/-- Witness for C1: two requests carrying ActionIDs `zz` and `aa` still
receive the two queued responses in wire order. -/
theorem responses_fifo_witness :
    (runSends freshMgr
        [[(actionIDKey, DVal.str (lineOf "zz"))],
         [(actionIDKey, DVal.str (lineOf "aa"))]]).1
      = [SendOutcome.ok demoMsg1, SendOutcome.ok demoMsg2] :=
  (responses_fifo_no_actionid_matching freshMgr
      [[lineOf "Response: Success\r\n"], [lineOf "Response: Error\r\n"]]
      [[(actionIDKey, DVal.str (lineOf "zz"))],
       [(actionIDKey, DVal.str (lineOf "aa"))]]
      (by decide) (by decide) (by decide) (by decide)).1

theorem resumeAll_none (n : Nat) : ∀ st : MgrState,
    st.responseQueue = List.replicate n none →
    (resumeAll n st).1 = List.replicate n SendOutcome.errConnTerminated := by
  induction n with
  | zero => intro st h; rfl
  | succ n ih =>
    intro st h
    have hrs : resumeSend st
        = (SendOutcome.errConnTerminated,
           { st with responseQueue := List.replicate n none,
                     reswaiting := st.reswaiting - 1 }) := by
      simp [resumeSend, h, List.replicate_succ]
    simp only [resumeAll, hrs]
    simp only [List.replicate_succ, List.cons.injEq, true_and]
    exact ih { st with responseQueue := List.replicate n none,
                       reswaiting := st.reswaiting - 1 } rfl

/-- Claim C5: a caller entering `send_action` on an empty response queue
blocks and stays registered in `_reswaiting`; when the router processes
the termination sentinel it fans out one `None` per registered waiter; and
every blocked caller resuming on such a `None` raises
`ManagerSocketException` (connection terminated) instead of hanging or
returning a value. -/
theorem connection_terminated_surfaced (n : Nat) (st st2 : MgrState) (d : CDict)
    (hconn : st.connected = true) (hq : st.responseQueue = [])
    (hq2 : st2.responseQueue = List.replicate n none) :
    (sendAction st (some d) []).1 = SendOutcome.blocked
    ∧ (sendAction st (some d) []).2.1.reswaiting = st.reswaiting + 1
    ∧ (messageLoop n [none]).2 = List.replicate n none
    ∧ (resumeAll n st2).1 = List.replicate n SendOutcome.errConnTerminated := by
  refine ⟨?_, ?_, rfl, resumeAll_none n st2 hq2⟩
  · simp [sendAction, hconn, hq]
  · simp [sendAction, hconn, hq]

/-- Witness for C5 with two blocked callers. -/
theorem connection_terminated_witness :
    (resumeAll 2 { freshMgr with responseQueue := [none, none] }).1
      = List.replicate 2 SendOutcome.errConnTerminated :=
  (connection_terminated_surfaced 2 { freshMgr with responseQueue := [] }
      { freshMgr with responseQueue := [none, none] } []
      (by decide) (by decide) (by decide)).2.2.2

theorem runCallbacks_eq (beh : Nat → Bool) (cbs : List Nat) :
    runCallbacks beh cbs
      = cbs.takeWhile (fun c => !beh c) ++ (cbs.dropWhile (fun c => !beh c)).take 1 := by
  induction cbs with
  | nil => rfl
  | cons c rest ih =>
    by_cases h : beh c
    · simp [runCallbacks, h, List.takeWhile_cons, List.dropWhile_cons]
    · simp [runCallbacks, h, List.takeWhile_cons, List.dropWhile_cons, ih]

/-- Claim C3: dispatching an event invokes exactly the subscribers
registered for the exact event name followed by those registered for the
wildcard `'*'`, in registration order, stopping right after the first
callback whose return value is truthy (expressed via
`takeWhile`/`dropWhile`); and `register_event` appends the new callback at
the end of the name's list. -/
theorem event_dispatch_order (reg : Registry) (name : Line) (beh : Nat → Bool) (f : Nat) :
    dispatchOne reg name beh
      = (callbacksFor reg name).takeWhile (fun c => !beh c)
        ++ ((callbacksFor reg name).dropWhile (fun c => !beh c)).take 1
    ∧ (dictGet name (registerEvent reg name f)).getD []
        = (dictGet name reg).getD [] ++ [f] :=
  ⟨runCallbacks_eq beh _, by simp [registerEvent, dictGet_dictSet_self]⟩

/-- Witness for the amended C4 at names `A`, `B` with values `1`, `2`. -/
theorem chanVariable_two_names_witness :
    dictGet chanVariableKey
        (managerMsg
          [lineOf "ChanVariable: " ++ lineOf "A" ++ '=' :: lineOf "1" ++ eolLine,
           lineOf "ChanVariable: " ++ lineOf "B" ++ '=' :: lineOf "2" ++ eolLine]).headers
      = some (HVal.nested [(lineOf "A", lineOf "1"), (lineOf "B", lineOf "2")]) :=
  chanVariable_two_names (lineOf "A") (lineOf "1") (lineOf "B") (lineOf "2")
    (by decide) (by decide) (by decide) (by decide) (by decide)
